import Mathlib

set_option maxRecDepth 100000

/-!
A verification development for the Google-News article-enrichment pipeline
(`article_crawler.py`, `ai_summarizer.py`, `main.py`).  Python functions are
shallowly embedded as executable Lean definitions; HTML parsing and other
third-party library behaviour (BeautifulSoup queries, `urljoin`, time) is
abstracted into explicit data or function parameters, while every piece of
control flow and data manipulation written in the repository itself is
translated statement by statement.
-/

namespace GoogleNews

/-! ### Python string primitives -/

/-- `as` is a prefix of `bs`. -/
def listStartsWith : List Char → List Char → Bool
  | [], _ => true
  | _ :: _, [] => false
  | a :: as, b :: bs => a == b && listStartsWith as bs

/-- The needle occurs contiguously inside the hay. -/
def listContains : List Char → List Char → Bool
  | needle, [] => needle.isEmpty
  | needle, hay@(_ :: rest) => listStartsWith needle hay || listContains needle rest

/-- Python's substring containment test `a in b` on strings. -/
def pySubstr (a b : String) : Bool :=
  listContains a.toList b.toList

/-- Python's `str.lower` restricted to ASCII case mapping — on the
ASCII-plus-Hangul strings this repository manipulates, `lower` only touches
`A`–`Z`. -/
def lowerChar (c : Char) : Char :=
  if 'A' ≤ c && c ≤ 'Z' then Char.ofNat (c.toNat + 32) else c

def pyLower (s : String) : String :=
  String.mk (s.toList.map lowerChar)

/-- Python's slice `s[:n]`, counted in code points. -/
def pyTake (s : String) (n : Nat) : String :=
  String.mk (s.toList.take n)

/-- The characters Python treats as whitespace (`str.isspace`, and the
`\s` class of the `re` module in text mode).  Note that U+200B and U+FEFF
are *not* whitespace for Python. -/
def isPySpace (c : Char) : Bool :=
  c = ' ' || c = '\t' || c = '\n' || c = '\r' ||
  c = '\x0b' || c = '\x0c' || c = '\u0085' || c = ' ' ||
  c = ' ' || (0x2000 ≤ c.toNat && c.toNat ≤ 0x200A) ||
  c = ' ' || c = ' ' || c = ' ' || c = ' ' || c = '　'

/-- Collapse maximal whitespace runs to one `' '`; the flag records whether the
previous character belonged to a whitespace run.  Models
`re.sub` applied with the whitespace-run pattern in `_clean_text`. -/
def collapseWsGo : List Char → Bool → List Char
  | [], _ => []
  | c :: rest, prevSpace =>
    if isPySpace c then
      if prevSpace then collapseWsGo rest true
      else ' ' :: collapseWsGo rest true
    else c :: collapseWsGo rest false

def collapseWs (l : List Char) : List Char :=
  collapseWsGo l false

/-- The two `replace` calls of `_clean_text` removing U+200B and U+FEFF. -/
def removeZeroWidth (l : List Char) : List Char :=
  l.filter (fun c => c != '​' && c != '﻿')

/-- Split a character list at the first `';'`, returning the part before and
the part after it. -/
def splitAtSemi : List Char → Option (List Char × List Char)
  | [] => none
  | ';' :: rest => some ([], rest)
  | c :: rest =>
    match splitAtSemi rest with
    | none => none
    | some (body, after) => some (c :: body, after)

/-- Parse a decimal numeral. -/
def decDigits? : List Char → Option Nat
  | [] => none
  | ds => ds.foldl (fun acc c =>
      match acc with
      | none => none
      | some n => if c.isDigit then some (n * 10 + (c.toNat - '0'.toNat)) else none)
      (some 0)

/-- Parse a hexadecimal numeral. -/
def hexDigits? : List Char → Option Nat
  | [] => none
  | ds => ds.foldl (fun acc c =>
      match acc with
      | none => none
      | some n =>
        if c.isDigit then some (n * 16 + (c.toNat - '0'.toNat))
        else if 'a' ≤ c && c ≤ 'f' then some (n * 16 + (c.toNat - 'a'.toNat + 10))
        else if 'A' ≤ c && c ≤ 'F' then some (n * 16 + (c.toNat - 'A'.toNat + 10))
        else none)
      (some 0)

/-- Decode the body of one HTML character reference (the text between `&` and
`;`).  Partial model of the Python standard library's `html.unescape`,
covering the XML entities, `nbsp`, and decimal/hexadecimal numeric
references; unknown bodies are left untouched, as `html.unescape` does. -/
def decodeEntity (body : List Char) : Option (List Char) :=
  if body = "amp".toList then some ['&']
  else if body = "lt".toList then some ['<']
  else if body = "gt".toList then some ['>']
  else if body = "quot".toList then some ['"']
  else if body = "apos".toList then some ['\'']
  else if body = "nbsp".toList then some [' ']
  else
    match body with
    | '#' :: 'x' :: ds =>
      (hexDigits? ds).bind (fun n => if n.isValidChar then some [Char.ofNat n] else none)
    | '#' :: 'X' :: ds =>
      (hexDigits? ds).bind (fun n => if n.isValidChar then some [Char.ofNat n] else none)
    | '#' :: ds =>
      (decDigits? ds).bind (fun n => if n.isValidChar then some [Char.ofNat n] else none)
    | _ => none

/-- Fuel-indexed scanner decoding HTML character references.  The fuel is an
upper bound on the number of characters still to be consumed. -/
def unescapeGo : Nat → List Char → List Char
  | 0, l => l
  | _ + 1, [] => []
  | fuel + 1, '&' :: rest =>
    (match splitAtSemi rest with
     | none => '&' :: unescapeGo fuel rest
     | some (body, after) =>
       match decodeEntity body with
       | some repl => repl ++ unescapeGo fuel after
       | none => '&' :: unescapeGo fuel rest)
  | fuel + 1, c :: rest => c :: unescapeGo fuel rest

/-- Model of `html.unescape` restricted to the entity table of
`decodeEntity`. -/
def pyUnescape (l : List Char) : List Char :=
  unescapeGo l.length l

/-- Remove the maximal whitespace suffix; models the right half of Python's
`str.strip`. -/
def rstripGo : List Char → List Char
  | [] => []
  | c :: rest =>
    match rstripGo rest with
    | [] => if isPySpace c then [] else [c]
    | r => c :: r

/-- Model of Python's `str.strip()`. -/
def pyStrip (l : List Char) : List Char :=
  rstripGo (l.dropWhile isPySpace)

/-- Model of `ArticleCrawler._clean_text`: the empty-input guard, whitespace
collapsing, zero-width removal, entity decoding and final strip, in the
source's order. -/
def cleanText (text : String) : String :=
  if text = "" then ""
  else String.mk (pyStrip (pyUnescape (removeZeroWidth (collapseWs text.toList))))

example : cleanText "  hello \t world  " = "hello world" := by decide
example : cleanText "a&amp;b" = "a&b" := by decide
example : cleanText "a ​ b" = "a  b" := by decide
example : cleanText "" = "" := by decide

/-! ### The parsed-page abstraction

BeautifulSoup itself is third-party library code; a parsed page is modelled by
the answers it gives to the queries the crawler performs on it. -/

/-- A structural element located by `soup.select_one`.  Its `text` field holds
the visible text that `element.get_text` produces *after* the
noise sub-elements listed in `remove_selectors` have been decomposed, so the
library-level DOM surgery of `_clean_content` is folded into the data. -/
structure Element where
  text : String
deriving DecidableEq

/-- One `<img>` tag as the crawler queries it. -/
structure Img where
  src : Option String
  dataSrc : Option String
  alt : Option String
  titleAttr : Option String
deriving DecidableEq

/-- A parsed page: `selectOne` answers `soup.select_one`, `paragraphTexts`
lists `p.get_text` with stripping for every `<p>` tag in document order,
`bodyText` is `body.get_text()` when a `<body>` exists, and `imgs` lists the
`<img>` tags in document order. -/
structure Page where
  selectOne : String → Option Element
  paragraphTexts : List String
  bodyText : Option String
  imgs : List Img

/-- A URL together with its network location, as `urllib.parse.urlparse`
would report it. -/
structure Url where
  full : String
  netloc : String
deriving DecidableEq

/-! ### Content extraction (`ArticleCrawler`) -/

/-- The per-site selector table `content_selectors`, in source order. -/
def contentSelectors : List (String × List String) :=
  [("aitimes.com", [".article-content", ".news-content", "article"]),
   ("techcrunch.com", [".entry-content", ".article-content"]),
   ("zdnet.co.kr", [".view_con", ".article_view", ".news-content"]),
   ("chosun.com", [".news_text", ".article_view", ".news-content"]),
   ("dt.co.kr", [".article-content", ".view-con", ".news-content"]),
   ("etnews.com", [".article_txt", ".news-content", ".article-content"]),
   ("hankyung.com", [".article-content", ".news-content"]),
   ("mk.co.kr", [".news_detail_text", ".article-content"])]

/-- The generic selector list used when no site-specific entry applies. -/
def genericSelectors : List String :=
  ["article", ".article-content", ".news-content", ".post-content",
   ".entry-content", "#content", ".article-body", ".news-body",
   ".content", ".main-content", ".article", ".post"]

/-- Selector lookup from `_extract_main_content`: the first table entry whose
domain key occurs inside the page's (lower-cased) network location wins;
otherwise the generic list is used. -/
def selectorsFor (domain : String) : List String :=
  match contentSelectors.find? (fun p => pySubstr p.1 domain) with
  | some p => p.2
  | none => genericSelectors

/-- Model of `_clean_content`: noise removal is already folded into
`Element.text` (see `Element`), after which the text is normalized. -/
def cleanContent (e : Element) : String :=
  cleanText e.text

/-- The selector loop of `_extract_main_content`: the first selector whose
element yields cleaned text longer than 200 characters wins. -/
def tryCascade (page : Page) : List String → Option String
  | [] => none
  | sel :: rest =>
    match page.selectOne sel with
    | some e =>
      if (cleanContent e).length > 200 then some (cleanContent e)
      else tryCascade page rest
    | none => tryCascade page rest

/-- Model of `_extract_main_content`.  The second component records whether
the `fallback_used` statistic was incremented. -/
def extractMainContent (page : Page) (url : Url) : String × Bool :=
  match tryCascade page (selectorsFor (pyLower url.netloc)) with
  | some c => (c, false)
  | none =>
    if page.paragraphTexts ≠ [] then
      (cleanText (String.intercalate " " page.paragraphTexts), true)
    else
      match page.bodyText with
      | some b => (cleanText (pyTake b 1000), false)
      | none => ("", false)

/-! ### Image harvesting -/

structure ImageRef where
  url : String
  alt : String
  titleAttr : String
deriving DecidableEq

def validExtensions : List String :=
  [".jpg", ".jpeg", ".png", ".gif", ".webp"]

def excludeKeywords : List String :=
  ["icon", "logo", "avatar", "thumbnail", "1x1", "pixel"]

/-- Model of `_is_valid_image`. -/
def isValidImage (url : String) : Bool :=
  if url = "" then false
  else if validExtensions.any (fun ext => pySubstr ext (pyLower url)) then true
  else if excludeKeywords.any (fun kw => pySubstr kw (pyLower url)) then false
  else true

/-- Python's `a or b` on optional strings: the first truthy operand. -/
def pyOrStr : Option String → Option String → Option String
  | some s, b => if s = "" then b else some s
  | none, b => b

/-- The body of the `<img>` loop in `_extract_images`: pick `src` or
`data-src`, resolve it against the base URL, and keep it when it passes
`_is_valid_image`. -/
def imageOfImg (urljoin : String → String → String) (baseUrl : String) (img : Img) :
    Option ImageRef :=
  match pyOrStr img.src img.dataSrc with
  | some src =>
    if src = "" then none
    else if isValidImage (urljoin baseUrl src) then
      some ⟨urljoin baseUrl src, img.alt.getD "", img.titleAttr.getD ""⟩
    else none
  | none => none

/-- Model of `_extract_images`; `urljoin` abstracts `urllib.parse.urljoin`. -/
def extractImages (urljoin : String → String → String) (page : Page) (baseUrl : String) :
    List ImageRef :=
  (page.imgs.filterMap (imageOfImg urljoin baseUrl)).take 5

/-! ### The crawl loop (`crawl_articles`) -/

/-- Outcome of the HTTP fetch and parse performed inside `_extract_content`:
either some exception was raised there (and caught there), or a parsed page
was obtained. -/
inductive FetchOutcome where
  | raises : FetchOutcome
  | page : Page → FetchOutcome

/-- Model of `_extract_content`: any exception raised by the fetch or the
extraction is caught inside the function, which then returns empty content
and no images.  The third component is the `fallback_used` increment flag of
`_extract_main_content`. -/
def extractContent (urljoin : String → String → String) (outcome : FetchOutcome)
    (url : Url) : String × List ImageRef × Bool :=
  match outcome with
  | .raises => ("", [], false)
  | .page p =>
    ((extractMainContent p url).1, extractImages urljoin p url.full,
      (extractMainContent p url).2)

/-- An article stub as `crawl_articles` consumes it: at least `title`,
`link` and `summary`. -/
structure Stub where
  title : String
  link : Url
  summary : String
deriving DecidableEq

/-- What happens to one stub inside the `for` loop of `crawl_articles`:
either an exception is raised by the loop body outside `_extract_content`
(caught by the loop's `except` clause), or `_extract_content` runs to
completion on a fetch outcome. -/
inductive ItemOutcome where
  | loopError : ItemOutcome
  | fetch : FetchOutcome → ItemOutcome

/-- The enriched article record written by `crawl_articles`. -/
structure Article where
  title : String
  link : Url
  summary : String
  content : String
  images : List ImageRef
  contentLength : Nat
  crawlStatus : String
deriving DecidableEq

/-- The `stats` dictionary initialized in `ArticleCrawler.__init__`. -/
structure Stats where
  totalAttempts : Nat
  successfulCrawls : Nat
  failedCrawls : Nat
  fallbackUsed : Nat
deriving DecidableEq

def initStats : Stats := ⟨0, 0, 0, 0⟩

/-- The record produced for one stub by the loop body of `crawl_articles`. -/
def enrichOne (urljoin : String → String → String) (stub : Stub) (o : ItemOutcome) :
    Article :=
  match o with
  | .loopError =>
    { title := stub.title, link := stub.link, summary := stub.summary,
      content := stub.summary, images := [],
      contentLength := stub.summary.length, crawlStatus := "error" }
  | .fetch r =>
    { title := stub.title, link := stub.link, summary := stub.summary,
      content := (extractContent urljoin r stub.link).1,
      images := (extractContent urljoin r stub.link).2.1,
      contentLength := (extractContent urljoin r stub.link).1.length,
      crawlStatus :=
        if (extractContent urljoin r stub.link).1 ≠ "" then "success" else "failed" }

/-- The statistics updates performed for one stub by the loop body of
`crawl_articles` (together with the `fallback_used` increment inside
`_extract_main_content`). -/
def stepStats (urljoin : String → String → String) (s : Stats) (stub : Stub)
    (o : ItemOutcome) : Stats :=
  match o with
  | .loopError => { s with failedCrawls := s.failedCrawls + 1 }
  | .fetch r =>
    let fb := if (extractContent urljoin r stub.link).2.2 then 1 else 0
    if (extractContent urljoin r stub.link).1 ≠ "" then
      { s with successfulCrawls := s.successfulCrawls + 1,
               fallbackUsed := s.fallbackUsed + fb }
    else
      { s with failedCrawls := s.failedCrawls + 1,
               fallbackUsed := s.fallbackUsed + fb }

/-- The `for` loop of `crawl_articles`; `o i` is the processing outcome of
the `i`-th stub. -/
def crawlGo (urljoin : String → String → String) :
    Stats → List Stub → (Nat → ItemOutcome) → Nat → Stats × List Article
  | s, [], _, _ => (s, [])
  | s, stub :: rest, o, i =>
    let a := enrichOne urljoin stub (o i)
    let s' := stepStats urljoin s stub (o i)
    let r := crawlGo urljoin s' rest o (i + 1)
    (r.1, a :: r.2)

/-- Model of `ArticleCrawler.crawl_articles`.  `s₀` is the crawler's
statistics state at entry (`initStats` for a crawler fresh from `__init__`);
the method assigns `total_attempts` and then runs the loop. -/
def crawlArticles (urljoin : String → String → String) (s₀ : Stats)
    (stubs : List Stub) (o : Nat → ItemOutcome) : Stats × List Article :=
  crawlGo urljoin { s₀ with totalAttempts := stubs.length } stubs o 0

/-- The guarded success-rate computation of `_print_statistics` (the
percentage itself is a float; what is modelled is the division guard). -/
def successRatePct (s : Stats) : Nat :=
  if s.totalAttempts > 0 then s.successfulCrawls * 100 / s.totalAttempts else 0

/-! ### Keyword/category tagging (`ai_summarizer.py`) -/

/-- `Config.AI_KEYWORDS` from `config.py`. -/
def aiKeywords : List String :=
  ["artificial intelligence", "AI", "machine learning", "deep learning",
   "neural network", "ChatGPT", "OpenAI", "Google AI", "인공지능", "머신러닝",
   "딥러닝", "생성형 AI", "AI 기술", "LLM", "GPT"]

/-- The `f"{article['title']} {summary}".lower()` text both tagger methods
scan. -/
def taggerText (title summary : String) : String :=
  pyLower (title ++ " " ++ summary)

/-- Model of `AISummarizer._extract_keywords`.  The keyword vocabulary is a
parameter; the source reads it from `Config.AI_KEYWORDS` (see
`aiKeywords`). -/
def extractKeywords (vocab : List String) (title summary : String) : List String :=
  (vocab.filter (fun k => pySubstr (pyLower k) (taggerText title summary))).take 5

/-- Model of `AISummarizer._categorize_article`.  The ordered category table
parameterizes `Config.CATEGORY_KEYWORDS`, which `config.py` never defines
(the attribute access would raise at run time); the algorithm itself is
translated from the source's nested loop. -/
def categorizeArticle (table : List (String × List String)) (title summary : String) :
    String :=
  match table.find? (fun p => p.2.any (fun k => pySubstr (pyLower k) (taggerText title summary))) with
  | some p => p.1
  | none => "AI 뉴스"

/-- Distinct elements in first-seen order: the key order of a
`collections.Counter` built by insertion. -/
def dedupFirstSeen (l : List String) : List String :=
  l.foldl (fun acc k => if k ∈ acc then acc else acc ++ [k]) []

/-- The default top-keyword list of `_get_top_keywords`. -/
def defaultKeywords : List String :=
  ["인공지능", "AI", "기술", "뉴스", "혁신"]

/-- The count-descending total preorder that `most_common` sorts by. -/
def countGe (l : List String) (a b : String) : Prop :=
  l.count b ≤ l.count a

instance (l : List String) : DecidableRel (countGe l) :=
  fun _ _ => Nat.decLe _ _

instance (l : List String) : IsTotal String (countGe l) :=
  ⟨fun _ _ => Nat.le_total _ _⟩

instance (l : List String) : IsTrans String (countGe l) :=
  ⟨fun _ _ _ h1 h2 => Nat.le_trans h2 h1⟩

/-- `Counter(all_keywords).most_common(10)` keys: the distinct keywords in
first-seen order, stably sorted by count descending (Python's `sorted` is a
stable sort; a stable sort under a total preorder is unique, so insertion
sort is an exact model). -/
def sortedKeywords (allKeywords : List String) : List String :=
  (dedupFirstSeen allKeywords).insertionSort (countGe allKeywords)

/-- Model of `AISummarizer._get_top_keywords`. -/
def getTopKeywords (allKeywords : List String) : List String :=
  if allKeywords = [] then defaultKeywords
  else (sortedKeywords allKeywords).take 10

/-! ### Batch summary (`main.create_simple_summary`) -/

/-- A crawled article as `create_simple_summary` consumes it.  `published`
is a timestamp modelled as an integer (its `strftime` rendering is
order-faithful and abstracted away). -/
structure SummaryInput where
  title : String
  source : String
  published : Int
  url : String
  content : String
deriving DecidableEq

/-- The recency-descending total preorder `sorted(..., reverse)` orders by. -/
def recentGe (a b : SummaryInput) : Prop :=
  b.published ≤ a.published

instance : DecidableRel recentGe :=
  fun _ _ => Int.decLe _ _

instance : IsTotal SummaryInput recentGe :=
  ⟨fun _ _ => Int.le_total _ _⟩

instance : IsTrans SummaryInput recentGe :=
  ⟨fun _ _ _ h1 h2 => Int.le_trans h2 h1⟩

/-- One entry of `summary_data['articles']`. -/
structure SummaryArticle where
  rank : Nat
  title : String
  source : String
  published : Int
  url : String
  contentPreview : String
  contentLength : Nat
deriving DecidableEq

/-- The parts of the `summary_data` dictionary.  `sources` models the
Python `set` as a duplicate-free list (only its cardinality is observable in
the claims); `keywordsFoundCount` likewise counts the distinct search
keywords found. -/
structure SummaryData where
  totalArticles : Nat
  articles : List SummaryArticle
  sources : List String
  latest : Option Int
  earliest : Option Int
  totalSources : Nat
  keywordsFoundCount : Nat
  avgContentLength : Nat

/-- The `article_data` record built for one article (rank comes from
`enumerate(sorted_articles, 1)`). -/
def mkSummaryArticle (rank : Nat) (a : SummaryInput) : SummaryArticle :=
  { rank := rank, title := a.title, source := a.source,
    published := a.published, url := a.url,
    contentPreview := if a.content ≠ "" then pyTake a.content 500 ++ "..." else "No Content",
    contentLength := a.content.length }

/-- The enumeration loop of `create_simple_summary`, starting at rank 1. -/
def buildSummaryArticles : Nat → List SummaryInput → List SummaryArticle
  | _, [] => []
  | i, a :: rest => mkSummaryArticle i a :: buildSummaryArticles (i + 1) rest

/-- Model of `main.create_simple_summary`.  `vocab` parameterizes
`Config.get_search_keywords()`; Python's `sorted(..., reverse:True)` is a
stable descending sort, rendered as a stable insertion sort under the
recency-descending total preorder (stable sorts under a total preorder
agree). -/
def createSimpleSummary (vocab : List String) (articles : List SummaryInput) :
    SummaryData :=
  let sorted := articles.insertionSort recentGe
  let sas := buildSummaryArticles 1 sorted
  let sources := dedupFirstSeen (sas.map (fun a => a.source))
  let kws := (dedupFirstSeen vocab).filter
    (fun k => sorted.any (fun a => pySubstr (pyLower k) (pyLower (a.title ++ " " ++ a.content))))
  { totalArticles := articles.length,
    articles := sas,
    sources := sources,
    latest := sas.head?.map (fun a => a.published),
    earliest := sas.getLast?.map (fun a => a.published),
    totalSources := sources.length,
    keywordsFoundCount := kws.length,
    avgContentLength :=
      if sas ≠ [] then (sas.map (fun a => a.contentLength)).sum / sas.length else 0 }

/-! ### Lemmas about the crawl loop -/

theorem crawlGo_length (urljoin : String → String → String) (o : Nat → ItemOutcome) :
    ∀ (stubs : List Stub) (s : Stats) (i : Nat),
      (crawlGo urljoin s stubs o i).2.length = stubs.length
  | [], _, _ => rfl
  | _ :: rest, s, i => by
    simp [crawlGo, crawlGo_length urljoin o rest _ (i + 1)]

theorem crawlGo_getElem? (urljoin : String → String → String) (o : Nat → ItemOutcome) :
    ∀ (stubs : List Stub) (s : Stats) (i j : Nat),
      (crawlGo urljoin s stubs o i).2[j]? =
        (stubs[j]?).map (fun stub => enrichOne urljoin stub (o (i + j)))
  | [], _, _, _ => by simp [crawlGo]
  | stub :: rest, s, i, 0 => by simp [crawlGo]
  | stub :: rest, s, i, j + 1 => by
    have h := crawlGo_getElem? urljoin o rest (stepStats urljoin s stub (o i)) (i + 1) j
    have e : i + 1 + j = i + (j + 1) := by omega
    rw [e] at h
    simpa [crawlGo] using h

theorem stepStats_totalAttempts (urljoin : String → String → String) (s : Stats)
    (stub : Stub) (o : ItemOutcome) :
    (stepStats urljoin s stub o).totalAttempts = s.totalAttempts := by
  cases o with
  | loopError => rfl
  | fetch r => simp only [stepStats]; split <;> rfl

theorem stepStats_succ_fail (urljoin : String → String → String) (s : Stats)
    (stub : Stub) (o : ItemOutcome) :
    (stepStats urljoin s stub o).successfulCrawls + (stepStats urljoin s stub o).failedCrawls
      = s.successfulCrawls + s.failedCrawls + 1 := by
  cases o with
  | loopError => simp [stepStats]; omega
  | fetch r => simp only [stepStats]; split <;> simp <;> omega

theorem stepStats_fallback (urljoin : String → String → String) (s : Stats)
    (stub : Stub) (o : ItemOutcome) :
    (stepStats urljoin s stub o).fallbackUsed ≤ s.fallbackUsed + 1 := by
  cases o with
  | loopError => simp [stepStats]
  | fetch r =>
    simp only [stepStats]
    split <;> simp <;> split <;> omega

theorem crawlGo_stats (urljoin : String → String → String) (o : Nat → ItemOutcome) :
    ∀ (stubs : List Stub) (s : Stats) (i : Nat),
      (crawlGo urljoin s stubs o i).1.totalAttempts = s.totalAttempts ∧
      (crawlGo urljoin s stubs o i).1.successfulCrawls
        + (crawlGo urljoin s stubs o i).1.failedCrawls
        = s.successfulCrawls + s.failedCrawls + stubs.length ∧
      (crawlGo urljoin s stubs o i).1.fallbackUsed ≤ s.fallbackUsed + stubs.length
  | [], s, i => by simp [crawlGo]
  | stub :: rest, s, i => by
    have ih := crawlGo_stats urljoin o rest (stepStats urljoin s stub (o i)) (i + 1)
    have h1 := stepStats_totalAttempts urljoin s stub (o i)
    have h2 := stepStats_succ_fail urljoin s stub (o i)
    have h3 := stepStats_fallback urljoin s stub (o i)
    simp only [crawlGo] at ih ⊢
    exact ⟨by rw [ih.1, h1], by rw [ih.2.1, h2]; simp [List.length_cons]; omega,
      by have := ih.2.2; simp only [List.length_cons]; omega⟩

/-- **C1.**  For every input sequence of `N ≥ 0` article stubs,
`crawl_articles` returns a list of exactly `N` enriched records, with no
drops and no duplicates, in the same input order: the output list has length
`N` and its `i`-th entry is the enrichment of the `i`-th stub under the
`i`-th processing outcome — in particular a failure while processing one
stub (`ItemOutcome.loopError` or a raising fetch) still contributes its own
record and leaves every other position untouched, and the function is total,
so nothing propagates to the caller. -/
theorem crawl_batch_shape (urljoin : String → String → String) (s₀ : Stats)
    (stubs : List Stub) (o : Nat → ItemOutcome) :
    (crawlArticles urljoin s₀ stubs o).2.length = stubs.length ∧
    ∀ i : Nat, (crawlArticles urljoin s₀ stubs o).2[i]? =
      (stubs[i]?).map (fun stub => enrichOne urljoin stub (o i)) := by
  constructor
  · exact crawlGo_length urljoin o stubs _ 0
  · intro i
    have h := crawlGo_getElem? urljoin o stubs { s₀ with totalAttempts := stubs.length } 0 i
    simpa [crawlArticles] using h

/-- A concrete stand-in for `urllib.parse.urljoin`. -/
def urljoinId : String → String → String := fun _ src => src

/-- The stub of the specification's timeout scenario. -/
def sampleStub : Stub :=
  { title := "Sample AI Launch",
    link := { full := "https://example.com/a", netloc := "example.com" },
    summary := "short" }

/-- **C2, counterexample.**  A stub whose page fetch raises (e.g. a network
timeout) does *not* come out with `crawl_status = 'error'` and the summary
text: `_extract_content` catches the exception itself and returns empty
content, so the record reads `crawl_status = 'failed'`, `content = ""`,
`images = []`. -/
theorem timeout_gives_failed_not_error :
    ((crawlArticles urljoinId initStats [sampleStub]
        (fun _ => ItemOutcome.fetch FetchOutcome.raises)).2.map
      (fun a => (a.crawlStatus, a.content, a.images))) = [("failed", "", [])] ∧
    ¬ ((crawlArticles urljoinId initStats [sampleStub]
        (fun _ => ItemOutcome.fetch FetchOutcome.raises)).2.map
      (fun a => (a.crawlStatus, a.content))) = [("error", "short")] := by
  constructor
  · decide
  · decide

/-- **C2, amended.**  For every stub whose fetch (or extraction) raises
inside `_extract_content`, the enriched record has `crawl_status = 'failed'`,
empty content and no images; the `'error'` status with the summary fallback
occurs exactly when an exception escapes to the crawl loop itself (outside
`_extract_content`), e.g. on a malformed stub record. -/
theorem crawl_error_paths (urljoin : String → String → String) (s₀ : Stats)
    (stubs : List Stub) (o : Nat → ItemOutcome) (i : Nat) (hi : i < stubs.length) :
    (o i = ItemOutcome.fetch FetchOutcome.raises →
      (crawlArticles urljoin s₀ stubs o).2[i]? =
        some { title := stubs[i].title, link := stubs[i].link,
               summary := stubs[i].summary, content := "", images := [],
               contentLength := 0, crawlStatus := "failed" }) ∧
    (o i = ItemOutcome.loopError →
      (crawlArticles urljoin s₀ stubs o).2[i]? =
        some { title := stubs[i].title, link := stubs[i].link,
               summary := stubs[i].summary, content := stubs[i].summary,
               images := [], contentLength := stubs[i].summary.length,
               crawlStatus := "error" }) := by
  have h := (crawl_batch_shape urljoin s₀ stubs o).2 i
  rw [List.getElem?_eq_getElem hi] at h
  constructor
  · intro ho
    rw [h, ho]
    simp [enrichOne, extractContent]
  · intro ho
    rw [h, ho]
    simp [enrichOne]

/-- Witness for `crawl_error_paths` at the timeout scenario's stub. -/
theorem crawl_error_paths_witness :
    (crawlArticles urljoinId initStats [sampleStub]
        (fun _ => ItemOutcome.fetch FetchOutcome.raises)).2[0]? =
      some { title := ([sampleStub])[0].title, link := ([sampleStub])[0].link,
             summary := ([sampleStub])[0].summary, content := "", images := [],
             contentLength := 0, crawlStatus := "failed" } :=
  (crawl_error_paths urljoinId initStats [sampleStub]
      (fun _ => ItemOutcome.fetch FetchOutcome.raises) 0 (by decide)).1 rfl

/-- **C10.**  After a run of `crawl_articles` on `N` stubs starting from the
`__init__` statistics state, `total_attempts = N`,
`successful_crawls + failed_crawls = total_attempts` (exactly one of the two
is incremented per stub on every path, the exception path included),
`fallback_used ≤ total_attempts`; for `N = 0` all four counters are zero and
the statistics printout's success rate is the guarded value `0`, with no
division by zero. -/
theorem crawl_stats_invariant (urljoin : String → String → String)
    (stubs : List Stub) (o : Nat → ItemOutcome) :
    (crawlArticles urljoin initStats stubs o).1.totalAttempts = stubs.length ∧
    (crawlArticles urljoin initStats stubs o).1.successfulCrawls
      + (crawlArticles urljoin initStats stubs o).1.failedCrawls
      = (crawlArticles urljoin initStats stubs o).1.totalAttempts ∧
    (crawlArticles urljoin initStats stubs o).1.fallbackUsed
      ≤ (crawlArticles urljoin initStats stubs o).1.totalAttempts ∧
    (stubs = [] →
      (crawlArticles urljoin initStats stubs o).1 = initStats ∧
      successRatePct (crawlArticles urljoin initStats stubs o).1 = 0) := by
  have h := crawlGo_stats urljoin o stubs { initStats with totalAttempts := stubs.length } 0
  simp only [crawlArticles] at *
  refine ⟨h.1, ?_, ?_, ?_⟩
  · rw [h.2.1, h.1]; simp [initStats]
  · calc (crawlGo urljoin { initStats with totalAttempts := stubs.length } stubs o 0).1.fallbackUsed
        ≤ initStats.fallbackUsed + stubs.length := h.2.2
      _ = (crawlGo urljoin { initStats with totalAttempts := stubs.length } stubs o 0).1.totalAttempts := by
          rw [h.1]; simp [initStats]
  · intro he
    subst he
    constructor
    · simp [crawlGo, initStats]
    · simp [crawlGo, successRatePct, initStats]

/-- Witness for `crawl_stats_invariant` at the empty batch. -/
theorem crawl_stats_invariant_witness :
    (crawlArticles urljoinId initStats [] (fun _ => ItemOutcome.loopError)).1 = initStats ∧
    successRatePct (crawlArticles urljoinId initStats [] (fun _ => ItemOutcome.loopError)).1 = 0 :=
  (crawl_stats_invariant urljoinId [] (fun _ => ItemOutcome.loopError)).2.2.2 rfl

theorem enrichOne_invariants (urljoin : String → String → String) (stub : Stub)
    (o : ItemOutcome) :
    (enrichOne urljoin stub o).contentLength = (enrichOne urljoin stub o).content.length ∧
    (enrichOne urljoin stub o).images.length ≤ 5 := by
  cases o with
  | loopError => exact ⟨rfl, Nat.zero_le 5⟩
  | fetch r =>
    refine ⟨rfl, ?_⟩
    cases r with
    | raises => exact Nat.zero_le 5
    | page p =>
      show (extractImages urljoin p stub.link.full).length ≤ 5
      exact List.length_take_le 5 _

/-- **C5.**  Every enriched record produced by any run of `crawl_articles`
stores `content_length = len(content)` (content is a total `String`, the
empty string on total failure, never null) and at most 5 images; and the
per-article keyword list of the tagger has at most 5 entries. -/
theorem enriched_invariants (urljoin : String → String → String) (s₀ : Stats)
    (stubs : List Stub) (o : Nat → ItemOutcome) :
    (∀ a ∈ (crawlArticles urljoin s₀ stubs o).2,
        a.contentLength = a.content.length ∧ a.images.length ≤ 5) ∧
    (∀ (vocab : List String) (title summary : String),
        (extractKeywords vocab title summary).length ≤ 5) := by
  constructor
  · intro a ha
    obtain ⟨i, hi, hget⟩ := List.mem_iff_getElem.mp ha
    have h := (crawl_batch_shape urljoin s₀ stubs o).2 i
    rw [List.getElem?_eq_getElem hi] at h
    have hilt : i < stubs.length := by
      have := (crawl_batch_shape urljoin s₀ stubs o).1
      omega
    rw [List.getElem?_eq_getElem hilt] at h
    simp only [Option.map_some', Option.some.injEq] at h
    rw [← hget, h]
    exact enrichOne_invariants urljoin stubs[i] (o i)
  · intro vocab title summary
    exact List.length_take_le 5 _

/-- Witness for `enriched_invariants`: the record of a raising fetch. -/
theorem enriched_invariants_witness :
    (enrichOne urljoinId
        { title := "t", link := { full := "u", netloc := "n" }, summary := "s" }
        (ItemOutcome.fetch FetchOutcome.raises)).contentLength
      = (enrichOne urljoinId
        { title := "t", link := { full := "u", netloc := "n" }, summary := "s" }
        (ItemOutcome.fetch FetchOutcome.raises)).content.length ∧
    (enrichOne urljoinId
        { title := "t", link := { full := "u", netloc := "n" }, summary := "s" }
        (ItemOutcome.fetch FetchOutcome.raises)).images.length ≤ 5 :=
  (enriched_invariants urljoinId initStats
      [{ title := "t", link := { full := "u", netloc := "n" }, summary := "s" }]
      (fun _ => ItemOutcome.fetch FetchOutcome.raises)).1 _ (by decide)

/-! ### The selector cascade -/

theorem tryCascade_append_first (page : Page) :
    ∀ (l₁ : List String) (sel : String) (l₂ : List String) (e : Element),
      (∀ s ∈ l₁, ∀ e', page.selectOne s = some e' → (cleanContent e').length ≤ 200) →
      page.selectOne sel = some e → (cleanContent e).length > 200 →
      tryCascade page (l₁ ++ sel :: l₂) = some (cleanContent e)
  | [], sel, l₂, e, _, hsel, hlen => by
    simp [tryCascade, hsel, hlen]
  | s :: rest, sel, l₂, e, hfail, hsel, hlen => by
    have ih := tryCascade_append_first page rest sel l₂ e
      (fun s' hs' => hfail s' (List.mem_cons_of_mem _ hs')) hsel hlen
    rw [List.cons_append]
    simp only [tryCascade]
    cases hse : page.selectOne s with
    | none => exact ih
    | some e' =>
      have hle := hfail s (List.mem_cons_self _ _) e' hse
      have hnot : ¬ ((cleanContent e').length > 200) := by omega
      simp only [if_neg hnot]
      exact ih

/-- **C3.**  The extractor walks the (per-domain or generic) selector list in
order and returns the cleaned text of the first selector whose matching
element clears the 200-character threshold, without looking at any later
selector, and without touching the `fallback_used` statistic (the returned
flag is `false`). -/
theorem first_selector_wins (page : Page) (url : Url) (l₁ : List String)
    (sel : String) (l₂ : List String) (e : Element)
    (hsel : selectorsFor (pyLower url.netloc) = l₁ ++ sel :: l₂)
    (hfail : ∀ s ∈ l₁, ∀ e', page.selectOne s = some e' → (cleanContent e').length ≤ 200)
    (hfound : page.selectOne sel = some e)
    (hlong : (cleanContent e).length > 200) :
    extractMainContent page url = (cleanContent e, false) := by
  unfold extractMainContent
  rw [hsel, tryCascade_append_first page l₁ sel l₂ e hfail hfound hlong]

/-- The page of the 300-character scenario: a single matching
`.article-content` element, no paragraphs, no body. -/
def page300 : Page :=
  { selectOne := fun s =>
      if s = ".article-content" then some ⟨String.mk (List.replicate 300 'a')⟩ else none,
    paragraphTexts := [], bodyText := none, imgs := [] }

def url300 : Url := { full := "https://example.com/news/1", netloc := "example.com" }

/-- Witness for `first_selector_wins`: the 300-character scenario. -/
theorem first_selector_wins_witness :
    extractMainContent page300 url300 =
      (cleanContent ⟨String.mk (List.replicate 300 'a')⟩, false) :=
  first_selector_wins page300 url300 ["article"] ".article-content"
    [".news-content", ".post-content", ".entry-content", "#content", ".article-body",
     ".news-body", ".content", ".main-content", ".article", ".post"]
    ⟨String.mk (List.replicate 300 'a')⟩
    (by decide)
    (by
      intro s hs e' he'
      rw [List.mem_singleton] at hs
      subst hs
      have hnone : page300.selectOne "article" = none := rfl
      rw [hnone] at he'
      exact Option.noConfusion he')
    rfl
    (by decide)

theorem tryCascade_eq_none (page : Page) :
    ∀ (l : List String),
      (∀ s ∈ l, ∀ e, page.selectOne s = some e → (cleanContent e).length ≤ 200) →
      tryCascade page l = none
  | [], _ => rfl
  | s :: rest, hfail => by
    have ih := tryCascade_eq_none page rest
      (fun s' hs' => hfail s' (List.mem_cons_of_mem _ hs'))
    simp only [tryCascade]
    cases hse : page.selectOne s with
    | none => exact ih
    | some e =>
      have hle := hfail s (List.mem_cons_self _ _) e hse
      have hnot : ¬ ((cleanContent e).length > 200) := by omega
      simp only [if_neg hnot]
      exact ih

/-- **C4.**  When no selector clears the 200-character threshold: with at
least one paragraph, the result is the normalized single-space concatenation
of all paragraph texts and `fallback_used` is incremented; with no
paragraphs, the result is the body text truncated at 1000 characters; with
no body either, the empty string — and the latter two leave `fallback_used`
unchanged. -/
theorem fallback_ordering (page : Page) (url : Url)
    (hfail : ∀ s ∈ selectorsFor (pyLower url.netloc), ∀ e,
        page.selectOne s = some e → (cleanContent e).length ≤ 200) :
    (page.paragraphTexts ≠ [] →
      extractMainContent page url =
        (cleanText (String.intercalate " " page.paragraphTexts), true)) ∧
    (page.paragraphTexts = [] → ∀ b, page.bodyText = some b →
      extractMainContent page url = (cleanText (pyTake b 1000), false)) ∧
    (page.paragraphTexts = [] → page.bodyText = none →
      extractMainContent page url = ("", false)) := by
  have hnone := tryCascade_eq_none page _ hfail
  unfold extractMainContent
  rw [hnone]
  refine ⟨fun hp => ?_, fun hp b hb => ?_, fun hp hb => ?_⟩
  · simp [hp]
  · simp [hp, hb]
  · simp [hp, hb]

/-- The page of the paragraph-fallback scenario. -/
def pagePara : Page :=
  { selectOne := fun _ => none, paragraphTexts := ["Hello", "world"],
    bodyText := none, imgs := [] }

def urlPara : Url := { full := "https://fallback.example/x", netloc := "fallback.example" }

/-- Witness for `fallback_ordering`: a page with no matching selector and two
paragraphs aggregates the paragraphs. -/
theorem fallback_ordering_witness :
    extractMainContent pagePara urlPara =
      (cleanText (String.intercalate " " pagePara.paragraphTexts), true) :=
  (fallback_ordering pagePara urlPara
      (by intro s hs e he; simp [pagePara] at he)).1 (by decide)

/-! ### Top-keyword collation -/

theorem dedupFirstSeen_go_mem (x : String) :
    ∀ (l acc : List String),
      x ∈ l.foldl (fun acc k => if k ∈ acc then acc else acc ++ [k]) acc ↔
        x ∈ acc ∨ x ∈ l
  | [], acc => by simp
  | k :: rest, acc => by
    simp only [List.foldl_cons]
    by_cases hk : k ∈ acc
    · rw [if_pos hk, dedupFirstSeen_go_mem x rest acc]
      constructor
      · rintro (h | h)
        · exact Or.inl h
        · exact Or.inr (List.mem_cons_of_mem _ h)
      · rintro (h | h)
        · exact Or.inl h
        · rcases List.mem_cons.mp h with h | h
          · exact Or.inl (h ▸ hk)
          · exact Or.inr h
    · rw [if_neg hk, dedupFirstSeen_go_mem x rest (acc ++ [k])]
      simp [List.mem_append, List.mem_cons, or_assoc]

theorem dedupFirstSeen_mem (x : String) (l : List String) :
    x ∈ dedupFirstSeen l ↔ x ∈ l := by
  rw [dedupFirstSeen, dedupFirstSeen_go_mem x l []]
  simp

theorem dedupFirstSeen_go_nodup :
    ∀ (l acc : List String), acc.Nodup →
      (l.foldl (fun acc k => if k ∈ acc then acc else acc ++ [k]) acc).Nodup
  | [], acc, h => h
  | k :: rest, acc, h => by
    simp only [List.foldl_cons]
    by_cases hk : k ∈ acc
    · rw [if_pos hk]
      exact dedupFirstSeen_go_nodup rest acc h
    · rw [if_neg hk]
      refine dedupFirstSeen_go_nodup rest (acc ++ [k]) ?_
      simp [List.nodup_append, h, hk]

theorem dedupFirstSeen_nodup (l : List String) : (dedupFirstSeen l).Nodup :=
  dedupFirstSeen_go_nodup l [] List.nodup_nil

theorem dedupFirstSeen_go_ne_nil :
    ∀ (l acc : List String), acc ≠ [] →
      l.foldl (fun acc k => if k ∈ acc then acc else acc ++ [k]) acc ≠ []
  | [], _, h => h
  | k :: rest, acc, h => by
    simp only [List.foldl_cons]
    by_cases hk : k ∈ acc
    · rw [if_pos hk]
      exact dedupFirstSeen_go_ne_nil rest acc h
    · rw [if_neg hk]
      refine dedupFirstSeen_go_ne_nil rest (acc ++ [k]) ?_
      simp

theorem dedupFirstSeen_ne_nil (l : List String) (h : l ≠ []) :
    dedupFirstSeen l ≠ [] := by
  cases l with
  | nil => exact absurd rfl h
  | cons k rest =>
    rw [dedupFirstSeen]
    simp only [List.foldl_cons, List.not_mem_nil, if_neg, List.nil_append]
    exact dedupFirstSeen_go_ne_nil rest [k] (by simp)

/-- The concrete keyword multiset of the tie scenario: counts are
AI ↦ 5, GPT ↦ 5, 인공지능 ↦ 3, with "AI" seen before "GPT". -/
def tieExample : List String :=
  ["AI", "GPT", "AI", "GPT", "인공지능", "AI", "GPT", "AI", "GPT", "인공지능",
   "AI", "GPT", "인공지능"]

/-- **C6.**  `_get_top_keywords` returns the distinct keywords stably sorted
by frequency descending (ties keep first-seen order), truncated to
`min(distinct, 10)`; on the empty collation it returns the fixed default
list, so the result is never empty.  The tie scenario
`{AI:5, GPT:5, 인공지능:3}` with AI seen first yields
`[AI, GPT, 인공지능]`. -/
theorem top_keywords_spec :
    (∀ l : List String, l ≠ [] →
        (getTopKeywords l).length = min ((dedupFirstSeen l).length) 10 ∧
        (getTopKeywords l).Pairwise (countGe l)) ∧
    (∀ (l : List String) (a b : String),
        List.Sublist [a, b] (dedupFirstSeen l) → l.count b ≤ l.count a →
        List.Sublist [a, b] (sortedKeywords l)) ∧
    (∀ l : List String, getTopKeywords l ≠ []) ∧
    getTopKeywords [] = defaultKeywords ∧
    getTopKeywords tieExample = ["AI", "GPT", "인공지능"] := by
  have hsorted : ∀ l : List String, (sortedKeywords l).Pairwise (countGe l) :=
    fun l => List.sorted_insertionSort (countGe l) (dedupFirstSeen l)
  have hlen : ∀ l : List String, (sortedKeywords l).length = (dedupFirstSeen l).length :=
    fun l => (List.perm_insertionSort (countGe l) (dedupFirstSeen l)).length_eq
  refine ⟨?_, ?_, ?_, rfl, by decide⟩
  · intro l hl
    constructor
    · rw [getTopKeywords, if_neg hl, List.length_take, hlen, Nat.min_comm]
    · rw [getTopKeywords, if_neg hl]
      exact (hsorted l).sublist (List.take_sublist _ _)
  · intro l a b hsub hcount
    exact List.pair_sublist_insertionSort hcount hsub
  · intro l
    by_cases hl : l = []
    · subst hl
      rw [getTopKeywords]
      simp [defaultKeywords]
    · rw [getTopKeywords, if_neg hl]
      have h1 : (dedupFirstSeen l).length ≠ 0 :=
        fun h => dedupFirstSeen_ne_nil l hl (List.eq_nil_of_length_eq_zero h)
      intro htake
      have h2 := congrArg List.length htake
      rw [List.length_take, hlen] at h2
      simp only [List.length_nil] at h2
      omega

/-- Witness for `top_keywords_spec` at the tie scenario. -/
theorem top_keywords_spec_witness :
    (getTopKeywords tieExample).length = min ((dedupFirstSeen tieExample).length) 10 ∧
    List.Sublist ["AI", "GPT"] (sortedKeywords tieExample) :=
  ⟨(top_keywords_spec.1 tieExample (by decide)).1,
   top_keywords_spec.2.1 tieExample "AI" "GPT" (by decide) (by decide)⟩

/-! ### Tagger properties -/

theorem find?_first {α : Type} (p : α → Bool) :
    ∀ (t₁ : List α) (x : α) (t₂ : List α),
      (∀ y ∈ t₁, p y = false) → p x = true →
      (t₁ ++ x :: t₂).find? p = some x
  | [], x, t₂, _, hx => by
    rw [List.nil_append]
    exact List.find?_cons_of_pos _ hx
  | y :: rest, x, t₂, hall, hx => by
    have hy := hall y (List.mem_cons_self _ _)
    rw [List.cons_append, List.find?_cons_of_neg _ (by simp [hy])]
    exact find?_first p rest x t₂ (fun z hz => hall z (List.mem_cons_of_mem _ hz)) hx

/-- **C7.**  The tagger's per-article keywords are exactly the vocabulary
terms occurring (case-insensitively) in the lower-cased title-plus-summary
text, in vocabulary order, capped at 5; and the category is the first entry
of the ordered category table with any keyword hit, defaulting to
`"AI 뉴스"`; the scenario table with text `"스타트업"` resolves to
`"기술"`. -/
theorem tagger_spec :
    (∀ (vocab : List String) (title summary : String),
        List.Sublist (extractKeywords vocab title summary) vocab ∧
        (∀ k ∈ extractKeywords vocab title summary,
            pySubstr (pyLower k) (taggerText title summary) = true) ∧
        (extractKeywords vocab title summary).length ≤ 5 ∧
        ((vocab.filter (fun k => pySubstr (pyLower k) (taggerText title summary))).length ≤ 5 →
          extractKeywords vocab title summary =
            vocab.filter (fun k => pySubstr (pyLower k) (taggerText title summary)))) ∧
    (∀ (t₁ : List (String × List String)) (c : String) (kws : List String)
        (t₂ : List (String × List String)) (title summary : String),
        (∀ p ∈ t₁, ∀ k ∈ p.2, pySubstr (pyLower k) (taggerText title summary) = false) →
        kws.any (fun k => pySubstr (pyLower k) (taggerText title summary)) = true →
        categorizeArticle (t₁ ++ (c, kws) :: t₂) title summary = c) ∧
    (∀ (table : List (String × List String)) (title summary : String),
        (∀ p ∈ table, ∀ k ∈ p.2, pySubstr (pyLower k) (taggerText title summary) = false) →
        categorizeArticle table title summary = "AI 뉴스") ∧
    categorizeArticle [("AI 뉴스", ["AI", "인공지능"]), ("기술", ["스타트업"])]
      "스타트업" "" = "기술" := by
  refine ⟨?_, ?_, ?_, by decide⟩
  · intro vocab title summary
    refine ⟨?_, ?_, ?_, ?_⟩
    · exact (List.take_sublist _ _).trans (List.filter_sublist _)
    · intro k hk
      rw [extractKeywords] at hk
      have h1 : k ∈ List.filter
          (fun k => pySubstr (pyLower k) (taggerText title summary)) vocab :=
        List.mem_of_mem_take hk
      simpa using List.of_mem_filter h1
    · exact List.length_take_le 5 _
    · intro hle
      exact List.take_of_length_le hle
  · intro t₁ c kws t₂ title summary hall hany
    rw [categorizeArticle,
      find?_first _ t₁ (c, kws) t₂
        (fun y hy => by
          simp only [List.any_eq_false]
          intro k hk
          simpa using hall y hy k hk)
        hany]
  · intro table title summary hall
    have hn : table.find?
        (fun p => p.2.any (fun k => pySubstr (pyLower k) (taggerText title summary))) = none := by
      rw [List.find?_eq_none]
      intro p hp hany
      rw [List.any_eq_true] at hany
      obtain ⟨k, hk, hs⟩ := hany
      rw [hall p hp k hk] at hs
      exact Bool.false_ne_true hs
    rw [categorizeArticle, hn]

/-- Witness for `tagger_spec`: the category scenario instantiated through
the first-match conjunct. -/
theorem tagger_spec_witness :
    categorizeArticle
      ([("AI 뉴스", ["AI", "인공지능"])] ++ ("기술", ["스타트업"]) :: [])
      "스타트업" "" = "기술" :=
  tagger_spec.2.1 [("AI 뉴스", ["AI", "인공지능"])] "기술" ["스타트업"] []
    "스타트업" "" (by decide) (by decide)

/-! ### Text-normalizer properties -/

theorem dropWhile_head_not :
    ∀ (l : List Char) (c : Char),
      (l.dropWhile isPySpace).head? = some c → isPySpace c = false
  | [], c, h => by simp at h
  | x :: rest, c, h => by
    by_cases hx : isPySpace x = true
    · rw [List.dropWhile_cons_of_pos hx] at h
      exact dropWhile_head_not rest c h
    · rw [List.dropWhile_cons_of_neg hx] at h
      simp only [List.head?_cons, Option.some.injEq] at h
      subst h
      exact Bool.not_eq_true _ ▸ hx

theorem rstripGo_head :
    ∀ (l : List Char) (c : Char),
      (rstripGo l).head? = some c → l.head? = some c
  | [], c, h => by simp [rstripGo] at h
  | x :: rest, c, h => by
    rw [rstripGo] at h
    cases hr : rstripGo rest with
    | nil =>
      rw [hr] at h
      by_cases hx : isPySpace x = true
      · rw [if_pos hx] at h
        simp at h
      · rw [if_neg hx] at h
        simp only [List.head?_cons, Option.some.injEq] at h
        subst h
        rfl
    | cons y ys =>
      rw [hr] at h
      simp only [List.head?_cons, Option.some.injEq] at h
      subst h
      rfl

theorem rstripGo_getLast :
    ∀ (l : List Char) (c : Char),
      (rstripGo l).getLast? = some c → isPySpace c = false
  | [], c, h => by simp [rstripGo] at h
  | x :: rest, c, h => by
    rw [rstripGo] at h
    cases hr : rstripGo rest with
    | nil =>
      rw [hr] at h
      by_cases hx : isPySpace x = true
      · rw [if_pos hx] at h
        simp at h
      · rw [if_neg hx] at h
        simp only [List.getLast?_singleton, Option.some.injEq] at h
        subst h
        exact Bool.not_eq_true _ ▸ hx
    | cons y ys =>
      rw [hr, List.getLast?_cons_cons, ← hr] at h
      exact rstripGo_getLast rest c h

/-- **C9, counterexample.**  The normalizer is not free of whitespace runs:
zero-width removal happens *after* whitespace collapsing, so the input
`"a U+200B b"` (spaces around a zero-width space) normalizes to `"a  b"`,
which contains two consecutive spaces. -/
theorem cleanText_whitespace_run_cex :
    cleanText "a ​ b" = "a  b" ∧
    (cleanText "a ​ b").toList = ['a', ' ', ' ', 'b'] ∧
    isPySpace ' ' = true := by
  refine ⟨by decide, by decide, by decide⟩

/-- **C9, amended.**  `_clean_text` is a pure function returning the empty
string on empty input and, thanks to the final `strip`, its output never
starts or ends with a (Python) whitespace character; HTML entities are
decoded (witnessed on `&amp;`), and whitespace runs present in the raw input
are collapsed — but because the zero-width removal and the entity decoding
run *after* the collapsing, a removed zero-width character between spaces
(or an entity decoding to whitespace) can leave a whitespace run in the
output. -/
theorem cleanText_amended :
    cleanText "" = "" ∧
    (∀ t : String, ∀ c : Char,
        (cleanText t).toList.head? = some c → isPySpace c = false) ∧
    (∀ t : String, ∀ c : Char,
        (cleanText t).toList.getLast? = some c → isPySpace c = false) ∧
    cleanText "a&amp;b" = "a&b" ∧
    cleanText "  x \t\n y  " = "x y" := by
  refine ⟨rfl, ?_, ?_, by decide, by decide⟩
  · intro t c h
    rw [cleanText] at h
    by_cases ht : t = ""
    · rw [if_pos ht] at h
      simp at h
    · rw [if_neg ht] at h
      have h2 : (pyStrip (pyUnescape (removeZeroWidth (collapseWs t.toList)))).head?
          = some c := h
      rw [pyStrip] at h2
      exact dropWhile_head_not _ c (rstripGo_head _ c h2)
  · intro t c h
    rw [cleanText] at h
    by_cases ht : t = ""
    · rw [if_pos ht] at h
      simp at h
    · rw [if_neg ht] at h
      have h2 : (pyStrip (pyUnescape (removeZeroWidth (collapseWs t.toList)))).getLast?
          = some c := h
      rw [pyStrip] at h2
      exact rstripGo_getLast _ c h2

/-- Witness for `cleanText_amended`: the edge-whitespace conjuncts at a
concrete input. -/
theorem cleanText_amended_witness :
    isPySpace 'x' = false ∧ isPySpace 'y' = false :=
  ⟨cleanText_amended.2.1 " x " 'x' (by decide),
   cleanText_amended.2.2.1 " y " 'y' (by decide)⟩

/-! ### Batch-summary properties -/

/-- The identifying key of a summary entry (everything except the rank and
the truncated preview). -/
def saKey (a : SummaryArticle) : String × String × Int × String × Nat :=
  (a.title, a.source, a.published, a.url, a.contentLength)

def siKey (a : SummaryInput) : String × String × Int × String × Nat :=
  (a.title, a.source, a.published, a.url, a.content.length)

theorem buildSummaryArticles_length :
    ∀ (n : Nat) (l : List SummaryInput),
      (buildSummaryArticles n l).length = l.length
  | _, [] => rfl
  | n, _ :: rest => by
    simp [buildSummaryArticles, buildSummaryArticles_length (n + 1) rest]

theorem buildSummaryArticles_map_published :
    ∀ (n : Nat) (l : List SummaryInput),
      (buildSummaryArticles n l).map (fun a => a.published)
        = l.map (fun a => a.published)
  | _, [] => rfl
  | n, _ :: rest => by
    simp [buildSummaryArticles, mkSummaryArticle,
      buildSummaryArticles_map_published (n + 1) rest]

theorem buildSummaryArticles_map_source :
    ∀ (n : Nat) (l : List SummaryInput),
      (buildSummaryArticles n l).map (fun a => a.source) = l.map (fun a => a.source)
  | _, [] => rfl
  | n, _ :: rest => by
    simp [buildSummaryArticles, mkSummaryArticle,
      buildSummaryArticles_map_source (n + 1) rest]

theorem buildSummaryArticles_map_contentLength :
    ∀ (n : Nat) (l : List SummaryInput),
      (buildSummaryArticles n l).map (fun a => a.contentLength)
        = l.map (fun a => a.content.length)
  | _, [] => rfl
  | n, _ :: rest => by
    simp [buildSummaryArticles, mkSummaryArticle,
      buildSummaryArticles_map_contentLength (n + 1) rest]

theorem buildSummaryArticles_map_key :
    ∀ (n : Nat) (l : List SummaryInput),
      (buildSummaryArticles n l).map saKey = l.map siKey
  | _, [] => rfl
  | n, _ :: rest => by
    simp [buildSummaryArticles, mkSummaryArticle, saKey, siKey,
      buildSummaryArticles_map_key (n + 1) rest]

theorem pairwise_head_bound :
    ∀ (l : List SummaryArticle),
      l.Pairwise (fun a b => b.published ≤ a.published) →
      ∀ x, l.head? = some x → ∀ a ∈ l, a.published ≤ x.published
  | [], _, x, hx => by simp at hx
  | y :: rest, hp, x, hx => by
    simp only [List.head?_cons, Option.some.injEq] at hx
    subst hx
    intro a ha
    rcases List.mem_cons.mp ha with h | h
    · subst h; exact le_refl _
    · exact (List.pairwise_cons.mp hp).1 a h

theorem pairwise_getLast_bound :
    ∀ (l : List SummaryArticle),
      l.Pairwise (fun a b => b.published ≤ a.published) →
      ∀ x, l.getLast? = some x → ∀ a ∈ l, x.published ≤ a.published
  | [], _, x, hx => by simp at hx
  | [y], _, x, hx => by
    simp only [List.getLast?_singleton, Option.some.injEq] at hx
    subst hx
    intro a ha
    rw [List.mem_singleton] at ha
    subst ha
    exact le_refl _
  | y :: z :: rest, hp, x, hx => by
    rw [List.getLast?_cons_cons] at hx
    have hx_mem : x ∈ z :: rest := List.mem_of_getLast?_eq_some hx
    intro a ha
    rcases List.mem_cons.mp ha with h | h
    · subst h
      exact (List.pairwise_cons.mp hp).1 x hx_mem
    · exact pairwise_getLast_bound (z :: rest) (List.pairwise_cons.mp hp).2 x hx a h

theorem dedupFirstSeen_length_card (l : List String) :
    (dedupFirstSeen l).length = l.toFinset.card := by
  have hfs : (dedupFirstSeen l).toFinset = l.toFinset := by
    ext x
    simp [List.mem_toFinset, dedupFirstSeen_mem]
  rw [← hfs]
  exact (List.toFinset_card_of_nodup (dedupFirstSeen_nodup l)).symm

/-- **C8.**  `create_simple_summary` presents the articles stably sorted by
published time descending, records the date range as the published stamps of
the first (latest) and last (earliest) entries after sorting — which bound
every entry — and computes the scalar totals: article count, distinct
source count, and floor-average content length; the empty batch yields a
well-formed summary with zero totals and average 0. -/
theorem summary_spec (vocab : List String) (arts : List SummaryInput) :
    (arts ≠ [] →
      (createSimpleSummary vocab arts).articles.Pairwise
        (fun a b => b.published ≤ a.published) ∧
      (createSimpleSummary vocab arts).articles.length = arts.length ∧
      ((createSimpleSummary vocab arts).articles.map saKey).Perm (arts.map siKey) ∧
      (∃ lat ear, (createSimpleSummary vocab arts).latest = some lat ∧
        (createSimpleSummary vocab arts).earliest = some ear ∧
        ∀ a ∈ (createSimpleSummary vocab arts).articles,
          ear ≤ a.published ∧ a.published ≤ lat) ∧
      (createSimpleSummary vocab arts).totalArticles = arts.length ∧
      (createSimpleSummary vocab arts).totalSources
        = (arts.map (fun a => a.source)).toFinset.card ∧
      (createSimpleSummary vocab arts).avgContentLength
        = (arts.map (fun a => a.content.length)).sum / arts.length) ∧
    ((createSimpleSummary vocab []).totalArticles = 0 ∧
      (createSimpleSummary vocab []).articles = [] ∧
      (createSimpleSummary vocab []).latest = none ∧
      (createSimpleSummary vocab []).earliest = none ∧
      (createSimpleSummary vocab []).totalSources = 0 ∧
      (createSimpleSummary vocab []).avgContentLength = 0) := by
  constructor
  · intro harts
    have hperm := List.perm_insertionSort recentGe arts
    have hsorted : (arts.insertionSort recentGe).Pairwise recentGe :=
      List.sorted_insertionSort recentGe arts
    have hpw : (buildSummaryArticles 1 (arts.insertionSort recentGe)).Pairwise
        (fun a b => b.published ≤ a.published) := by
      have h1 : ((buildSummaryArticles 1 (arts.insertionSort recentGe)).map
          (fun a => a.published)).Pairwise (fun x y : Int => y ≤ x) := by
        rw [buildSummaryArticles_map_published]
        exact List.pairwise_map.mpr (hsorted.imp (fun h => h))
      exact List.pairwise_map.mp h1
    have hlen : (buildSummaryArticles 1 (arts.insertionSort recentGe)).length
        = arts.length := by
      rw [buildSummaryArticles_length]
      exact hperm.length_eq
    have hne : buildSummaryArticles 1 (arts.insertionSort recentGe) ≠ [] := by
      intro hnil
      rw [hnil] at hlen
      exact harts (List.eq_nil_of_length_eq_zero hlen.symm)
    refine ⟨hpw, ?_, ?_, ?_, rfl, ?_, ?_⟩
    · exact hlen
    · show ((buildSummaryArticles 1 (arts.insertionSort recentGe)).map saKey).Perm
        (arts.map siKey)
      rw [buildSummaryArticles_map_key]
      exact hperm.map siKey
    · obtain ⟨y, hy⟩ := Option.isSome_iff_exists.mp
        (List.head?_isSome.mpr hne)
      obtain ⟨z, hz⟩ := Option.isSome_iff_exists.mp
        (List.getLast?_isSome.mpr hne)
      refine ⟨y.published, z.published, ?_, ?_, ?_⟩
      · show ((buildSummaryArticles 1 (arts.insertionSort recentGe)).head?.map
          (fun a => a.published)) = some y.published
        rw [hy]
        rfl
      · show ((buildSummaryArticles 1 (arts.insertionSort recentGe)).getLast?.map
          (fun a => a.published)) = some z.published
        rw [hz]
        rfl
      · intro a ha
        exact ⟨pairwise_getLast_bound _ hpw z hz a ha,
          pairwise_head_bound _ hpw y hy a ha⟩
    · show (dedupFirstSeen ((buildSummaryArticles 1 (arts.insertionSort recentGe)).map
          (fun a => a.source))).length = (arts.map (fun a => a.source)).toFinset.card
      rw [dedupFirstSeen_length_card, buildSummaryArticles_map_source]
      congr 1
      ext x
      simp only [List.mem_toFinset]
      exact (hperm.map (fun a => a.source)).mem_iff
    · show (if buildSummaryArticles 1 (arts.insertionSort recentGe) ≠ [] then
          ((buildSummaryArticles 1 (arts.insertionSort recentGe)).map
            (fun a => a.contentLength)).sum
            / (buildSummaryArticles 1 (arts.insertionSort recentGe)).length
        else 0) = (arts.map (fun a => a.content.length)).sum / arts.length
      rw [if_pos hne, buildSummaryArticles_map_contentLength, hlen,
        (hperm.map (fun a => a.content.length)).sum_eq]
  · refine ⟨rfl, ?_, rfl, ?_, rfl, rfl⟩
    · show buildSummaryArticles 1 (List.insertionSort recentGe []) = []
      rfl
    · show ((buildSummaryArticles 1 (List.insertionSort recentGe [])).getLast?.map
        (fun a => a.published)) = none
      rfl

/-- The concrete two-article batch used to witness `summary_spec`. -/
def demoArts : List SummaryInput :=
  [{ title := "older", source := "s1", published := 5, url := "u1", content := "abc" },
   { title := "newer", source := "s2", published := 9, url := "u2", content := "de" }]

/-- Witness for `summary_spec` at a concrete non-empty batch. -/
theorem summary_spec_witness :
    (createSimpleSummary [] demoArts).articles.length = demoArts.length ∧
    (createSimpleSummary [] demoArts).totalArticles = demoArts.length :=
  ⟨((summary_spec [] demoArts).1 (by decide)).2.1,
   ((summary_spec [] demoArts).1 (by decide)).2.2.2.2.1⟩

end GoogleNews
